import Mathlib

/-!
Shallow embedding of the finviz_long_trader strategy-execution core
(src/brain/models.py, src/brain/state_store.py, src/brain/strategy.py,
src/execution/paper_broker.py) and proofs about the spec's claims.

Modelling conventions:
* Python floats (prices, P&L) are modelled as exact rationals `ℚ`; float
  rounding error is outside the model.  `round(x, 2)` is modelled as exact
  half-to-even rounding of the rational value to cents.
* Python ints (share quantities) are modelled as `ℤ`.
* `datetime` timestamps are modelled as an abstract tick `ℕ`; `utcnow()`
  becomes an explicit time parameter `t`.
* Python dicts are modelled as association lists that preserve insertion
  order (`alUpsert` updates in place or appends), matching dict semantics.
* Python sets are modelled as duplicate-free insertion lists.
* `uuid.uuid4()` is modelled as an injective fresh-id supply `idGen` driven
  by a counter threaded through the system state; generated ids are marked
  by a leading '#' character, which models the global-uniqueness assumption
  on uuids (a caller-supplied id never collides with a generated one).
* Truthiness of optional numeric fields (`a or b`) is modelled by `pyOr`:
  `none` and `some 0` are falsy, mirroring Python.
* strategy.py (lines 83, 244, 284) and paper_broker.py (lines 49, 55) read
  or assign `Fill.side`, `Quote.high` and `Position.last_entry_date`, but
  models.py declares none of these three fields.  On a pydantic model an
  undeclared constructor keyword is silently dropped, reading an undeclared
  attribute raises `AttributeError`, and assigning one raises `ValueError`.
  Fill processing is therefore embedded twice: the `_src` functions
  (`process_fills_src` and its helpers) follow models.py exactly and return
  the raised error together with the state at the raise point, while
  `process_fills` and its helpers embed the data model described by the
  spec's section 3 (all three fields declared), under which those
  statements succeed.  Claims about raising versus not raising are settled
  against the `_src` semantics.  `Quote.high` is kept as the optional field
  the spec describes; every embedded call site passes
  `use_high_for_limits = false` (strategy.py line 447 uses the default), so
  the short-circuit at paper_broker.py line 55 never reaches the
  `quote.high` read that would raise on the source's `Quote`.
-/

namespace FinvizTrader

/-- Association-list lookup, first binding wins (dict lookup). -/
def alFind {α : Type} (k : String) : List (String × α) → Option α
  | [] => none
  | (k', v) :: rest => if k' = k then some v else alFind k rest

/-- Association-list insert-or-update: updates the existing binding in place
or appends a new one, preserving Python dict insertion order. -/
def alUpsert {α : Type} (k : String) (v : α) : List (String × α) → List (String × α)
  | [] => [(k, v)]
  | (k', v') :: rest => if k' = k then (k, v) :: rest else (k', v') :: alUpsert k v rest

/-- Python truthiness of an optional number: `None` and `0` are falsy. -/
def qTruthy : Option ℚ → Bool
  | none => false
  | some v => v ≠ 0

/-- Python `a or b` on optional numbers: returns `a` when truthy, else `b`. -/
def pyOr (a b : Option ℚ) : Option ℚ :=
  if qTruthy a then a else b

/-- Half-to-even rounding of a rational to an integer (Python `round`). -/
def roundHalfEven (q : ℚ) : ℤ :=
  let f : ℤ := ⌊q⌋
  let r : ℚ := q - f
  if r < 1/2 then f
  else if 1/2 < r then f + 1
  else if f % 2 = 0 then f else f + 1

/-- Python `round(x, 2)`: round to cents, half to even. -/
def round2 (q : ℚ) : ℚ :=
  (roundHalfEven (q * 100) : ℚ) / 100

/-- Fresh-id supply modelling `uuid.uuid4()`.  The leading `'#'` marks
generated ids; see the header on id freshness. -/
def idGen (n : ℕ) : String :=
  String.mk ('#' :: (Nat.repr n).data)

/-- models.py `OrderSide`. -/
inductive OrderSide
  | BUY
  | SELL
deriving DecidableEq, Repr

/-- models.py `OrderType`. -/
inductive OrderType
  | MARKET
  | LIMIT
deriving DecidableEq, Repr

/-- models.py `OrderStatus`. -/
inductive OrderStatus
  | NEW
  | WORKING
  | FILLED
  | CANCELLED
  | REJECTED
deriving DecidableEq, Repr

/-- models.py `Quote` (all prices optional, as the live data provider can
supply `None`; `mid` is precomputed by the pydantic validator; `high` is
read by paper_broker.py line 55). -/
structure Quote where
  symbol : String
  bid : Option ℚ
  ask : Option ℚ
  last : Option ℚ
  mid : Option ℚ
  high : Option ℚ
deriving DecidableEq, Repr

/-- models.py `Order`. -/
structure Order where
  id : String
  symbol : String
  side : OrderSide
  type : OrderType
  price : Option ℚ
  quantity : ℤ
  status : OrderStatus
  created_at : ℕ
  updated_at : ℕ
  tags : List String
deriving DecidableEq, Repr

/-- models.py `Order.mark_status`: unconditionally overwrite the status and
refresh `updated_at` (no monotonicity guard in the source). -/
def Order.mark_status (o : Order) (st : OrderStatus) (t : ℕ) : Order :=
  { o with status := st, updated_at := t }

/-- models.py `Fill` (`side` is optional: the live broker can leave it
unset, and strategy.py line 244 defaults it to BUY). -/
structure Fill where
  id : String
  order_id : String
  symbol : String
  quantity : ℤ
  price : ℚ
  side : Option OrderSide
  timestamp : ℕ
deriving DecidableEq, Repr

/-- models.py `Position` (`last_entry_date` is written by strategy.py
line 284). -/
structure Position where
  symbol : String
  total_shares : ℤ
  avg_price : ℚ
  cash_invested : ℚ
  realized_pnl : ℚ
  open_target_orders : List String
  closed : Bool
  last_entry_date : Option String
deriving DecidableEq, Repr

/-- models.py `Position.apply_buy_fill`. -/
def Position.apply_buy_fill (p : Position) (f : Fill) : Position :=
  let total_cost := p.avg_price * p.total_shares + f.price * f.quantity
  let shares := p.total_shares + f.quantity
  { p with
      total_shares := shares
      cash_invested := p.cash_invested + f.price * f.quantity
      avg_price := if shares ≠ 0 then total_cost / shares else 0 }

/-- models.py `Position.apply_sell_fill`: reduce shares, accumulate realized
P&L against the (unchanged) average price, close and clamp at zero. -/
def Position.apply_sell_fill (p : Position) (f : Fill) : Position :=
  let shares := p.total_shares - f.quantity
  let pnl := p.realized_pnl + (f.price * f.quantity - p.avg_price * f.quantity)
  if shares ≤ 0 then
    { p with total_shares := 0, realized_pnl := pnl, closed := true }
  else
    { p with total_shares := shares, realized_pnl := pnl }

/-- state_store.py metric values (the metrics dict is heterogeneous). -/
inductive MetricValue
  | num (q : ℚ)
  | str (s : String)
  | boolv (b : Bool)
  | nullv
deriving DecidableEq, Repr

/-- state_store.py `JsonStateStore`: the in-memory image of the store. -/
structure JsonStateStore where
  positions : List (String × Position)
  orders : List (String × Order)
  fills : List (String × Fill)
  traded_dates : List (String × String)
  processed_fill_ids : List String
  metrics : List (String × MetricValue)
deriving DecidableEq, Repr

/-- The store with every table empty. -/
def JsonStateStore.empty : JsonStateStore :=
  { positions := [], orders := [], fills := [], traded_dates := [],
    processed_fill_ids := [], metrics := [] }

def JsonStateStore.upsert_position (s : JsonStateStore) (p : Position) : JsonStateStore :=
  { s with positions := alUpsert p.symbol p s.positions }

def JsonStateStore.upsert_order (s : JsonStateStore) (o : Order) : JsonStateStore :=
  { s with orders := alUpsert o.id o s.orders }

def JsonStateStore.record_fill (s : JsonStateStore) (f : Fill) : JsonStateStore :=
  { s with fills := alUpsert f.id f s.fills }

def JsonStateStore.mark_traded (s : JsonStateStore) (symbol iso_date : String) : JsonStateStore :=
  { s with traded_dates := alUpsert symbol iso_date s.traded_dates }

def JsonStateStore.record_processed_fill_id (s : JsonStateStore) (fid : String) : JsonStateStore :=
  if fid ∈ s.processed_fill_ids then s
  else { s with processed_fill_ids := fid :: s.processed_fill_ids }

def JsonStateStore.is_fill_processed (s : JsonStateStore) (fid : String) : Bool :=
  fid ∈ s.processed_fill_ids

/-- state_store.py `JsonStateStore.clear` (lines 75-82): every table is
emptied, including `traded_dates`, `processed_fill_ids` and `metrics`. -/
def JsonStateStore.clear (_ : JsonStateStore) : JsonStateStore :=
  JsonStateStore.empty

def JsonStateStore.get_open_positions (s : JsonStateStore) : List (String × Position) :=
  s.positions.filter (fun kv => !kv.2.closed)

/-- state_store.py `_persist` payload: only `traded_dates`,
`processed_fill_ids` and `metrics` are written to disk. -/
structure PersistedState where
  traded_dates : List (String × String)
  processed_fill_ids : List String
  metrics : List (String × MetricValue)
deriving DecidableEq, Repr

def JsonStateStore.persisted (s : JsonStateStore) : PersistedState :=
  { traded_dates := s.traded_dates
    processed_fill_ids := s.processed_fill_ids
    metrics := s.metrics }

/-- state_store.py `_load`: positions/orders/fills are never reloaded from
disk; only the persisted payload comes back. -/
def loadStore (p : PersistedState) : JsonStateStore :=
  { positions := [], orders := [], fills := []
    traded_dates := p.traded_dates
    processed_fill_ids := p.processed_fill_ids
    metrics := p.metrics }

/-- paper_broker.py `PaperBroker`: in-memory open-order book. -/
structure PaperBroker where
  open_orders : List (String × Order)
deriving DecidableEq, Repr

/-- paper_broker.py `model_copy(deep=True)`: a deep copy is the identity on
values; the point in the source is that the subsequent `mark_status` mutates
the copy, never the caller's instance. -/
def modelCopyDeep (o : Order) : Order := o

/-- paper_broker.py `PaperBroker.place_order` (lines 20-25): deep-copy the
order, mark the copy WORKING, register it, return the copy. -/
def PaperBroker.place_order (b : PaperBroker) (t : ℕ) (o : Order) : Order × PaperBroker :=
  let order_copy := (modelCopyDeep o).mark_status OrderStatus.WORKING t
  (order_copy, { open_orders := alUpsert order_copy.id order_copy b.open_orders })

/-- paper_broker.py market-fill pricing: sell at bid else last, buy at ask
else last (Python truthiness). -/
def marketFillPrice (side : OrderSide) (q : Quote) : Option ℚ :=
  match side with
  | OrderSide.SELL => pyOr q.bid q.last
  | OrderSide.BUY => pyOr q.ask q.last

/-- paper_broker.py line 55: high-of-day crossing test (both values must be
present, `is not None` semantics). -/
def highCond (useHigh : Bool) (hi lp : Option ℚ) : Bool :=
  match useHigh, hi, lp with
  | true, some h, some p => decide (p ≤ h)
  | _, _, _ => false

/-- paper_broker.py line 57: mid crossing test (truthiness semantics). -/
def midCond (mid lp : Option ℚ) : Bool :=
  qTruthy mid && qTruthy lp && decide (lp.getD 0 ≤ mid.getD 0)

/-- paper_broker.py lines 54-58: a limit sell is hit when the high-of-day
test or (else) the mid test passes. -/
def limitSellHit (useHigh : Bool) (q : Quote) (lp : Option ℚ) : Bool :=
  highCond useHigh q.high lp || midCond q.mid lp

/-- One pass of paper_broker.py `simulate_minute`'s loop over the open-order
book: returns (fills, ids to remove, next fresh-id counter). -/
def simLoop (quotes : List (String × Quote)) (useHigh : Bool) (t : ℕ) :
    ℕ → List (String × Order) → List Fill × List String × ℕ
  | n, [] => ([], [], n)
  | n, (oid, o) :: rest =>
    match alFind o.symbol quotes with
    | none => simLoop quotes useHigh t n rest
    | some q =>
      if o.type = OrderType.MARKET then
        let f : Fill :=
          { id := idGen n, order_id := o.id, symbol := o.symbol,
            quantity := o.quantity, price := (marketFillPrice o.side q).getD 0,
            side := some o.side, timestamp := t }
        let r := simLoop quotes useHigh t (n + 1) rest
        (f :: r.1, oid :: r.2.1, r.2.2)
      else if o.type = OrderType.LIMIT ∧ o.side = OrderSide.SELL ∧ limitSellHit useHigh q o.price then
        let f : Fill :=
          { id := idGen n, order_id := o.id, symbol := o.symbol,
            quantity := o.quantity, price := o.price.getD 0,
            side := some o.side, timestamp := t }
        let r := simLoop quotes useHigh t (n + 1) rest
        (f :: r.1, oid :: r.2.1, r.2.2)
      else simLoop quotes useHigh t n rest

/-- paper_broker.py `simulate_minute` (lines 30-76). -/
def PaperBroker.simulate_minute (b : PaperBroker) (quotes : List (String × Quote))
    (useHigh : Bool) (t : ℕ) (n : ℕ) : List Fill × PaperBroker × ℕ :=
  let r := simLoop quotes useHigh t n b.open_orders
  (r.1, { open_orders := b.open_orders.filter (fun kv => ¬ kv.1 ∈ r.2.1) }, r.2.2)

/-- Configuration slice of config.py `Settings` used by the embedded core. -/
structure Config where
  baseDollars : ℚ
  slippageBps : ℚ
  clearState : Bool
deriving DecidableEq, Repr

/-- The strategy-visible mutable state: the state store, the paper broker,
the fresh-id counter, and the in-memory `Strategy._eod_done_date`. -/
structure Sys where
  store : JsonStateStore
  broker : PaperBroker
  nextId : ℕ
  eodDone : Option String
deriving DecidableEq, Repr

/-- strategy.py `Strategy.__init__` after a process restart against the
paper broker: the store is reloaded from the persisted payload, the broker
book is empty, and `_eod_done_date` is `None`. -/
def restartSys (p : PersistedState) : Sys :=
  { store := loadStore p, broker := { open_orders := [] }, nextId := 0, eodDone := none }

/-- A status counting as open (`status in {NEW, WORKING}`). -/
def isOpenStatus (st : OrderStatus) : Bool :=
  st = OrderStatus.NEW || st = OrderStatus.WORKING

/-- strategy.py lines 353-358: open SELL orders currently stored for a
symbol. -/
def openSellsFor (sym : String) (s : JsonStateStore) : List Order :=
  (s.orders.map Prod.snd).filter
    (fun o => o.symbol = sym && o.side = OrderSide.SELL && isOpenStatus o.status)

/-- strategy.py lines 367-376: the four-stage ladder (tag, limit price,
tranche quantity) derived from entry price and share count; the first three
tranches are `floor(shares * 0.25)` and the fourth the remainder, prices are
the entry price times 1.10 / 1.20 / 1.50 / 2.00 rounded to cents. -/
def targetLadder (entry_price : ℚ) (total_shares : ℤ) : List (String × ℚ × ℤ) :=
  let first := ⌊(total_shares : ℚ) * (25/100)⌋
  let second := ⌊(total_shares : ℚ) * (25/100)⌋
  let third := ⌊(total_shares : ℚ) * (25/100)⌋
  let fourth := total_shares - (first + second + third)
  [("target_10", round2 (entry_price * (110/100)), first),
   ("target_20", round2 (entry_price * (120/100)), second),
   ("target_50", round2 (entry_price * (150/100)), third),
   ("target_100", round2 (entry_price * (200/100)), fourth)]

/-- strategy.py lines 377-398: the placement loop over the ladder.  Skips
non-positive tranches; otherwise builds a NEW LIMIT SELL order, places it
with the broker, appends the accepted id to the position's target list and
persists the accepted order.  Also returns the list of accepted orders. -/
def ladderLoop (sym : String) (t : ℕ) :
    List (String × ℚ × ℤ) → Position → Sys → Position × Sys × List Order
  | [], pos, sys => (pos, sys, [])
  | (tag, price, qty) :: rest, pos, sys =>
    if qty ≤ 0 then ladderLoop sym t rest pos sys
    else
      let o : Order :=
        { id := idGen sys.nextId, symbol := sym, side := OrderSide.SELL,
          type := OrderType.LIMIT, price := some price, quantity := qty,
          status := OrderStatus.NEW, created_at := t, updated_at := t, tags := [tag] }
      let pb := sys.broker.place_order t o
      let pos' := { pos with open_target_orders := pos.open_target_orders ++ [pb.1.id] }
      let sys' : Sys :=
        { sys with broker := pb.2, nextId := sys.nextId + 1,
                   store := sys.store.upsert_order pb.1 }
      let r := ladderLoop sym t rest pos' sys'
      (r.1, r.2.1, pb.1 :: r.2.2)

/-- strategy.py `Strategy._place_targets` (lines 345-398): guard on shares
and closed flag, skip when open sells already exist, else place the ladder. -/
def place_targets (t : ℕ) (pos : Position) (entry_price : ℚ) (total_shares : ℤ)
    (sys : Sys) : Position × Sys × List Order :=
  if total_shares ≤ 0 ∨ pos.closed then (pos, sys, [])
  else if openSellsFor pos.symbol sys.store ≠ [] then (pos, sys, [])
  else ladderLoop pos.symbol t (targetLadder entry_price total_shares) pos sys

/-- strategy.py `Strategy._handle_buy_fill` (lines 269-326) over the data
model of spec section 3, in which `Position.last_entry_date` is declared
and the line-284 assignment succeeds; `handle_buy_fill_src` below follows
models.py as actually declared, where that assignment raises. -/
def handle_buy_fill (today : String) (t : ℕ) (order : Order) (f : Fill)
    (skip_targets : Bool) (sys : Sys) : Sys :=
  let pos0 : Position :=
    match alFind order.symbol sys.store.positions with
    | some p => { p.apply_buy_fill f with closed := false }
    | none =>
      { symbol := order.symbol, total_shares := f.quantity, avg_price := f.price,
        cash_invested := f.price * f.quantity, realized_pnl := 0,
        open_target_orders := [], closed := false, last_entry_date := none }
  let pos := { pos0 with last_entry_date := some today }
  if skip_targets || order.tags.contains "reconciled_fill" then
    { sys with store := (sys.store.upsert_position pos).mark_traded order.symbol today }
  else
    let filled_qty_for_order :=
      (((sys.store.fills.map Prod.snd).filter (fun g => g.order_id = order.id)).map
        (fun g => g.quantity)).sum
    if filled_qty_for_order < order.quantity then
      { sys with store := (sys.store.upsert_position pos).mark_traded order.symbol today }
    else
      let open_buys :=
        (sys.store.orders.map Prod.snd).filter
          (fun o => o.symbol = order.symbol && o.side = OrderSide.BUY && isOpenStatus o.status)
      if open_buys ≠ [] then
        { sys with store := (sys.store.upsert_position pos).mark_traded order.symbol today }
      else
        let r := place_targets t pos f.price pos.total_shares sys
        let sys' := r.2.1
        { sys' with store := (sys'.store.upsert_position r.1).mark_traded order.symbol today }

/-- strategy.py `Strategy._handle_sell_fill` (lines 328-343): apply the sell
to the tracked position (warn-and-return when untracked), drop the order id
from the open-target list, clear the list when the position closed. -/
def handle_sell_fill (order : Order) (f : Fill) (sys : Sys) : Sys :=
  match alFind order.symbol sys.store.positions with
  | none => sys
  | some pos =>
    let pos1 := pos.apply_sell_fill f
    let pos2 := { pos1 with open_target_orders := pos1.open_target_orders.erase order.id }
    let pos3 := if pos2.closed then { pos2 with open_target_orders := [] } else pos2
    { sys with store := sys.store.upsert_position pos3 }

/-- Common tail of strategy.py `_process_fills` (lines 259-267): mark the
order FILLED, persist it, record the fill and its id, dispatch by side. -/
def finishFill (reconciling : Bool) (today : String) (t : ℕ) (f : Fill) (order : Order)
    (skip_targets : Bool) (sys : Sys) : Sys :=
  let order1 := order.mark_status OrderStatus.FILLED t
  let store1 :=
    (((sys.store.upsert_order order1).record_fill f).record_processed_fill_id f.id)
  let sys1 := { sys with store := store1 }
  if order1.side = OrderSide.BUY then
    handle_buy_fill today t order1 f (skip_targets || reconciling) sys1
  else
    handle_sell_fill order1 f sys1

/-- strategy.py `_process_fills` body for one fill (lines 238-267) over the
data model of spec section 3, in which `Fill.side` is declared and line 244
succeeds: look the order up by id; when unknown, synthesize a placeholder
tagged "reconciled_fill" and suppress target placement.
`processOneFill_src` below follows models.py as actually declared, where
the unknown-order read of `fill.side` raises. -/
def processOneFill (reconciling : Bool) (today : String) (t : ℕ) (sys : Sys)
    (f : Fill) : Sys :=
  match alFind f.order_id sys.store.orders with
  | none =>
    let order0 : Order :=
      { id := f.order_id, symbol := f.symbol, side := f.side.getD OrderSide.BUY,
        type := OrderType.MARKET, price := none, quantity := f.quantity,
        status := OrderStatus.NEW, created_at := t, updated_at := t,
        tags := ["reconciled_fill"] }
    let sys0 := { sys with store := sys.store.upsert_order order0 }
    finishFill reconciling today t f order0 true sys0
  | some order0 =>
    finishFill reconciling today t f order0 (order0.tags.contains "reconciled_fill") sys

/-- strategy.py `Strategy._process_fills` (lines 237-267): note that there
is no dedupe-set check here; every delivered fill is applied. -/
def process_fills (reconciling : Bool) (today : String) (t : ℕ) (fills : List Fill)
    (sys : Sys) : Sys :=
  fills.foldl (processOneFill reconciling today t) sys

/-- Python exception values raised by the source's pydantic models:
models.py declares `Fill` without `side` and `Position` without
`last_entry_date`, so the attribute read at strategy.py line 244 raises
`AttributeError` and the attribute assignment at line 284 raises
`ValueError`. -/
inductive PyError
  | attributeError (attr : String)
  | valueError (field : String)
deriving DecidableEq, Repr

/-- strategy.py `Strategy._handle_buy_fill` (lines 269-326) over the data
model exactly as models.py declares it.  For an existing position the
in-place `apply_buy_fill` and `closed = False` mutations (lines 272-273)
are visible through the store's dict, then line 284 assigns
`position.last_entry_date`, which raises `ValueError` (models.py's
`Position` declares no such field).  For a new symbol the fresh `Position`
of lines 275-283 is built but the same assignment raises before it is ever
stored.  Everything after line 284 — the partial-fill check, the open-buy
check, `_place_targets`, `upsert_position`, `mark_traded` — is dead code
on this model. -/
def handle_buy_fill_src (order : Order) (f : Fill) (sys : Sys) : Sys × Option PyError :=
  match alFind order.symbol sys.store.positions with
  | some p =>
    let p1 := { p.apply_buy_fill f with closed := false }
    ({ sys with store := { sys.store with
        positions := alUpsert order.symbol p1 sys.store.positions } },
     some (PyError.valueError "last_entry_date"))
  | none => (sys, some (PyError.valueError "last_entry_date"))

/-- strategy.py `_process_fills` body for one fill (lines 238-267) over the
data model exactly as models.py declares it.  For an unknown order id, line
244 reads `fill.side` and raises `AttributeError` (models.py's `Fill`
declares no `side`; the brokers pass `side=` as a constructor extra that
pydantic drops), so no placeholder order is synthesized and nothing is
persisted.  For a known order, the marking and recording of lines 259-262
happen, then the buy handler raises at line 284 while the sell handler
(which touches only declared fields) completes normally.  `reconciling`
and the `skip_targets` flag of lines 240 and 256-257 are never consumed on
these paths and are dropped from the signature. -/
def processOneFill_src (t : ℕ) (sys : Sys) (f : Fill) : Sys × Option PyError :=
  match alFind f.order_id sys.store.orders with
  | none => (sys, some (PyError.attributeError "side"))
  | some order0 =>
    let order1 := order0.mark_status OrderStatus.FILLED t
    let store1 :=
      (((sys.store.upsert_order order1).record_fill f).record_processed_fill_id f.id)
    let sys1 := { sys with store := store1 }
    if order1.side = OrderSide.BUY then handle_buy_fill_src order1 f sys1
    else (handle_sell_fill order1 f sys1, none)

/-- strategy.py `Strategy._process_fills` (lines 237-267) over the data
model exactly as models.py declares it: fills are applied in order and the
first raised exception propagates (no try/except intervenes between line
238 and the scheduler), leaving the mutations already performed in place
and the remaining fills unprocessed. -/
def process_fills_src (t : ℕ) : List Fill → Sys → Sys × Option PyError
  | [], sys => (sys, none)
  | f :: fs, sys =>
    let r := processOneFill_src t sys f
    if r.2.isNone then process_fills_src t fs r.1 else r

/-- strategy.py `_run_alpaca_eod` fill-delivery step (lines 477-482) over
the data model exactly as models.py declares it: filter out fills whose id
is already in the dedupe set, process the rest, and record their ids only
when processing returned normally (an exception propagates before the
line 481-482 recording loop runs).  This is the layer at which duplicate
delivery is suppressed. -/
def deliver_fills_deduped_src (t : ℕ) (fills : List Fill) (sys : Sys) :
    Sys × Option PyError :=
  let new_fills := fills.filter (fun f => ¬ sys.store.is_fill_processed f.id)
  let r := process_fills_src t new_fills sys
  if r.2.isNone then
    ({ r.1 with
        store := new_fills.foldl (fun st f => st.record_processed_fill_id f.id) r.1.store },
     none)
  else r

/-- Per-candidate order sizing/typing decision produced by strategy.py
`_place_buys` (lines 188-221). -/
structure BuySpec where
  type : OrderType
  price : Option ℚ
  quantity : ℤ
deriving DecidableEq, Repr

/-- strategy.py lines 211-212: exposure over price, rounded up, floored at
one share. -/
def buyShares (baseDollars price_for_size : ℚ) : ℤ :=
  max 1 ⌈baseDollars / price_for_size⌉

/-- strategy.py `_place_buys` loop body (lines 188-221): a screener price
forces a LIMIT at 1.5x; otherwise size from last/ask/bid, MARKET by default,
LIMIT at ask plus slippage only premarket on the live (Alpaca) backend;
skip when no price is available. -/
def buy_decision (cfg : Config) (premarket isAlpaca : Bool)
    (finvizPx : Option ℚ) (q : Option Quote) : Option BuySpec :=
  let slippage : ℚ := if premarket then cfg.slippageBps / 10000 else 0
  if qTruthy finvizPx then
    let px := finvizPx.getD 0
    some { type := OrderType.LIMIT, price := some (round2 (px * (150/100))),
           quantity := buyShares cfg.baseDollars px }
  else
    match q with
    | none => none
    | some qq =>
      let price_for_size := pyOr (pyOr qq.last qq.ask) qq.bid
      if ¬ qTruthy price_for_size then none
      else
        let px := price_for_size.getD 0
        if premarket && isAlpaca then
          let ask := pyOr qq.ask (some px)
          some { type := OrderType.LIMIT,
                 price := some (round2 (max (1/100) (ask.getD 0 * (1 + slippage)))),
                 quantity := buyShares cfg.baseDollars px }
        else
          some { type := OrderType.MARKET, price := none,
                 quantity := buyShares cfg.baseDollars px }

/-- Modelled from the spec's words (claim C6): the reference price prefers
the externally supplied screener price, else the quote's last, else ask,
else bid, and is unavailable when none of these carries a usable (truthy)
price.  Stated for comparison against `buy_decision`. -/
def specReferencePrice (finvizPx : Option ℚ) (q : Option Quote) : Option ℚ :=
  if qTruthy finvizPx then finvizPx
  else
    match q with
    | none => none
    | some qq =>
      if qTruthy qq.last then qq.last
      else if qTruthy qq.ask then qq.ask
      else if qTruthy qq.bid then qq.bid
      else none

/-- strategy.py `_run_paper_eod` per-position liquidation step (lines
429-448): skip flat positions, place a MARKET SELL for the full share
count, poll the broker with that symbol's quote and process the resulting
fills immediately. -/
def eodSellStep (today : String) (quotes : List (String × Quote)) (t : ℕ)
    (s : Sys) (kv : String × Position) : Sys :=
  if kv.2.total_shares ≤ 0 then s
  else
    let o : Order :=
      { id := idGen s.nextId, symbol := kv.1, side := OrderSide.SELL,
        type := OrderType.MARKET, price := none, quantity := kv.2.total_shares,
        status := OrderStatus.NEW, created_at := t, updated_at := t,
        tags := ["eod_liquidation"] }
    let pb := s.broker.place_order t o
    let s1 : Sys :=
      { s with broker := pb.2, nextId := s.nextId + 1,
               store := s.store.upsert_order pb.1 }
    let fq := match alFind kv.1 quotes with | some q => [(kv.1, q)] | none => []
    let sim := s1.broker.simulate_minute fq false t s1.nextId
    let s2 : Sys := { s1 with broker := sim.2.1, nextId := sim.2.2 }
    process_fills false today t sim.1 s2

/-- strategy.py lines 450-455: mark a previously-open position closed, flat
and target-free (the loop runs over the pre-liquidation snapshot but the
snapshot objects alias the store's current entries). -/
def eodClosePos (s : Sys) (kv : String × Position) : Sys :=
  let p := (alFind kv.1 s.store.positions).getD kv.2
  { s with store :=
      s.store.upsert_position { p with closed := true, open_target_orders := [], total_shares := 0 } }

/-- strategy.py `_run_paper_eod` main branch (lines 429-462): liquidate each
open position of the snapshot, mark everything closed, optionally clear the
whole store, set the in-memory eod-done date. -/
def run_paper_eod_body (cfg : Config) (today : String) (quotes : List (String × Quote))
    (t : ℕ) (sys1 : Sys) (positions : List (String × Position)) : Sys :=
  let symbols_to_sell := (positions.filter (fun kv => 0 < kv.2.total_shares)).map Prod.fst
  let sys2 :=
    if symbols_to_sell ≠ [] then positions.foldl (eodSellStep today quotes t) sys1
    else sys1
  let sys3 := positions.foldl eodClosePos sys2
  let store4 := if cfg.clearState then sys3.store.clear else sys3.store
  { sys3 with store := store4, eodDone := some today }

/-- strategy.py `Strategy._run_paper_eod` (lines 413-462): cancel open
sells, early-exit on an empty book, else run the liquidation body.  The
external quote fetch is the `quotes` parameter. -/
def run_paper_eod (cfg : Config) (today : String) (quotes : List (String × Quote))
    (t : ℕ) (sys : Sys) : Sys :=
  let openSells :=
    (sys.store.orders.map Prod.snd).filter
      (fun o => o.side = OrderSide.SELL && isOpenStatus o.status)
  let store1 :=
    openSells.foldl (fun st o => st.upsert_order (o.mark_status OrderStatus.CANCELLED t))
      sys.store
  let sys1 : Sys := { sys with store := store1 }
  let positions := store1.get_open_positions
  if positions = [] ∧ store1.orders = [] then { sys1 with eodDone := some today }
  else run_paper_eod_body cfg today quotes t sys1 positions

/-- strategy.py `Strategy.run_eod_liquidation` (lines 400-411) against the
paper backend: the only guard is the in-memory `_eod_done_date`.  The
returned Bool records whether the liquidation protocol body was entered. -/
def run_eod_liquidation (cfg : Config) (today : String) (quotes : List (String × Quote))
    (t : ℕ) (sys : Sys) : Bool × Sys :=
  if sys.eodDone = some today then (false, sys)
  else (true, run_paper_eod cfg today quotes t sys)

/-- config.py `Settings` defaults: `BASE_POSITION_DOLLARS = 1000.0`,
`PREMARKET_BUY_SLIPPAGE_BPS = 30.0`, `EOD_CLEAR_STATE = True`. -/
def cfgPaper : Config :=
  { baseDollars := 1000, slippageBps := 30, clearState := true }

/-- A completely empty system state. -/
def sysEmpty : Sys :=
  { store := JsonStateStore.empty, broker := { open_orders := [] },
    nextId := 0, eodDone := none }

/-- Concrete scenario (spec section 8): a WORKING 20-share entry BUY order. -/
def orderC1 : Order :=
  { id := "o1", symbol := "ABC", side := OrderSide.BUY, type := OrderType.MARKET,
    price := none, quantity := 20, status := OrderStatus.WORKING,
    created_at := 0, updated_at := 0, tags := ["entry"] }

/-- Concrete scenario: a partial fill (12 of 20 shares) of `orderC1` at 50
(target placement is deferred on partial fills, spec section 8). -/
def fillC1 : Fill :=
  { id := "f1", order_id := "o1", symbol := "ABC", quantity := 12, price := 50,
    side := some OrderSide.BUY, timestamp := 1 }

/-- Concrete scenario: a system tracking only `orderC1`. -/
def sysC1 : Sys :=
  { store := { JsonStateStore.empty with orders := [("o1", orderC1)] },
    broker := { open_orders := [] }, nextId := 0, eodDone := none }

/-- Concrete scenario: a target SELL order already CANCELLED (terminal). -/
def orderC4 : Order :=
  { id := "o2", symbol := "ABC", side := OrderSide.SELL, type := OrderType.LIMIT,
    price := some 55, quantity := 5, status := OrderStatus.CANCELLED,
    created_at := 0, updated_at := 0, tags := ["target_10"] }

/-- Concrete scenario: a broker-reported fill for the cancelled `orderC4`
(reachable in the paper EOD flow, which cancels the store copy while the
broker book still holds the live order). -/
def fillC4 : Fill :=
  { id := "f2", order_id := "o2", symbol := "ABC", quantity := 5, price := 55,
    side := some OrderSide.SELL, timestamp := 3 }

/-- Concrete scenario: a system tracking only the cancelled `orderC4`. -/
def sysC4 : Sys :=
  { store := { JsonStateStore.empty with orders := [("o2", orderC4)] },
    broker := { open_orders := [] }, nextId := 0, eodDone := none }

/-- Concrete scenario: an open 10-share position. -/
def posEod : Position :=
  { symbol := "ABC", total_shares := 10, avg_price := 50, cash_invested := 500,
    realized_pnl := 0, open_target_orders := [], closed := false,
    last_entry_date := some "2026-10-10" }

/-- Concrete scenario: a system carrying an open position plus nonempty
cross-day metrics, traded-date guard and processed-fill dedupe history. -/
def sysEod : Sys :=
  { store := { JsonStateStore.empty with
      positions := [("ABC", posEod)],
      processed_fill_ids := ["fA"],
      traded_dates := [("ABC", "2026-10-10")],
      metrics := [("max_invested_value", MetricValue.num 500)] },
    broker := { open_orders := [] }, nextId := 0, eodDone := none }

/-- Concrete scenario: a freshly filled 20-share position with entry price
10.333, not closed, no targets yet. -/
def posC3 : Position :=
  { symbol := "ABC", total_shares := 20, avg_price := 10333/1000,
    cash_invested := 10333/50, realized_pnl := 0, open_target_orders := [],
    closed := false, last_entry_date := some "2026-10-10" }

/-- Concrete scenario: the 20-share position of the spec's sizing scenario
(entry price 50). -/
def posC3W : Position :=
  { symbol := "ABC", total_shares := 20, avg_price := 50, cash_invested := 1000,
    realized_pnl := 0, open_target_orders := [], closed := false,
    last_entry_date := some "2026-10-10" }

/-- Concrete scenario: the last open target SELL of a 5-share position. -/
def orderC5 : Order :=
  { id := "t1", symbol := "ABC", side := OrderSide.SELL, type := OrderType.LIMIT,
    price := some 55, quantity := 5, status := OrderStatus.WORKING,
    created_at := 0, updated_at := 0, tags := ["target_10"] }

/-- Concrete scenario: a 5-share position holding `orderC5` as its only
open target. -/
def posC5 : Position :=
  { symbol := "ABC", total_shares := 5, avg_price := 50, cash_invested := 250,
    realized_pnl := 0, open_target_orders := ["t1"], closed := false,
    last_entry_date := some "2026-10-10" }

/-- Concrete scenario: the fill that empties `posC5` at 55. -/
def fillC5 : Fill :=
  { id := "f5", order_id := "t1", symbol := "ABC", quantity := 5, price := 55,
    side := some OrderSide.SELL, timestamp := 4 }

/-- Concrete scenario: a system tracking `posC5`. -/
def sysC5 : Sys :=
  { store := { JsonStateStore.empty with positions := [("ABC", posC5)] },
    broker := { open_orders := [] }, nextId := 0, eodDone := none }

/-- Concrete scenario: a quote with last 50, ask 51, bid 49. -/
def quoteW : Quote :=
  { symbol := "ABC", bid := some 49, ask := some 51, last := some 50,
    mid := some 50, high := none }

/-- Concrete scenario: a fill of `orderC1` (12 of 20 shares at 50), used
for the duplicate-delivery counterexample.  `side := none`: real `Fill`
instances carry no side value (models.py declares no `side` field and
pydantic drops the brokers' `side=` constructor extra). -/
def fillDup : Fill :=
  { id := "d1", order_id := "o1", symbol := "ABC", quantity := 12, price := 50,
    side := none, timestamp := 1 }

/-- Concrete failing input for the unknown-order path: a fill referencing
an order id absent from the store, again with `side := none` as on the
source's `Fill`. -/
def fillU9 : Fill :=
  { id := "f9", order_id := "ux", symbol := "XYZ", quantity := 7, price := 3,
    side := none, timestamp := 2 }

/-- Store invariant: every order is stored under its own id (the store is
keyed by `order.id` at every `upsert_order` call site). -/
def ordersKeyInv (l : List (String × Order)) : Prop :=
  ∀ (k : String) (o : Order), alFind k l = some o → o.id = k

theorem alFind_upsert_self {α : Type} (k : String) (v : α) (l : List (String × α)) :
    alFind k (alUpsert k v l) = some v := by
  induction l with
  | nil => simp [alFind, alUpsert]
  | cons hd tl ih =>
    by_cases h : hd.1 = k
    · simp [alUpsert, alFind, h]
    · simp only [alUpsert, alFind, h, if_false]
      exact ih

theorem alFind_upsert_ne {α : Type} (k k' : String) (v : α) (l : List (String × α))
    (h : k' ≠ k) : alFind k' (alUpsert k v l) = alFind k' l := by
  have hkk : ¬ k = k' := fun hh => h hh.symm
  induction l with
  | nil => simp [alFind, alUpsert, hkk]
  | cons hd tl ih =>
    by_cases hk : hd.1 = k
    · simp [alUpsert, alFind, hk, hkk]
    · simp [alUpsert, alFind, hk, ih]

theorem alUpsert_upsert_same {α : Type} (k : String) (v v' : α) (l : List (String × α)) :
    alUpsert k v (alUpsert k v' l) = alUpsert k v l := by
  induction l with
  | nil => simp [alUpsert]
  | cons hd tl ih =>
    by_cases h : hd.1 = k
    · simp [alUpsert, h]
    · simp [alUpsert, h, ih]

theorem alUpsert_ne_nil {α : Type} (k : String) (v : α) (l : List (String × α)) :
    alUpsert k v l ≠ [] := by
  cases l with
  | nil => simp [alUpsert]
  | cons hd tl =>
    by_cases h : hd.1 = k <;> simp [alUpsert, h]

theorem idGen_head (n : ℕ) : (idGen n).data.head? = some '#' := rfl

theorem ne_idGen_of_head (s : String) (h : s.data.head? ≠ some '#') (n : ℕ) :
    s ≠ idGen n := by
  intro hs
  exact h (hs ▸ idGen_head n)

theorem record_processed_mem (s : JsonStateStore) (fid : String) :
    fid ∈ (s.record_processed_fill_id fid).processed_fill_ids := by
  unfold JsonStateStore.record_processed_fill_id
  by_cases h : fid ∈ s.processed_fill_ids <;> simp [h]

theorem record_fill_orders (s : JsonStateStore) (f : Fill) :
    (s.record_fill f).orders = s.orders := rfl

theorem record_processed_orders (s : JsonStateStore) (fid : String) :
    (s.record_processed_fill_id fid).orders = s.orders := by
  unfold JsonStateStore.record_processed_fill_id
  split <;> rfl

theorem upsert_position_orders (s : JsonStateStore) (p : Position) :
    (s.upsert_position p).orders = s.orders := rfl

theorem mark_traded_orders (s : JsonStateStore) (a b : String) :
    (s.mark_traded a b).orders = s.orders := rfl

theorem pyOr_pos (a b : Option ℚ) (h : qTruthy a = true) : pyOr a b = a := by
  simp [pyOr, h]

theorem pyOr_neg (a b : Option ℚ) (h : qTruthy a = false) : pyOr a b = b := by
  simp [pyOr, h]

theorem handle_buy_src_err (o : Order) (f : Fill) (s : Sys) :
    (handle_buy_fill_src o f s).2 = some (PyError.valueError "last_entry_date") := by
  unfold handle_buy_fill_src
  split <;> rfl

theorem handle_buy_src_processed (o : Order) (f : Fill) (s : Sys) :
    ((handle_buy_fill_src o f s).1).store.processed_fill_ids
      = s.store.processed_fill_ids := by
  unfold handle_buy_fill_src
  split <;> rfl

/-- C1 (counterexample): `Strategy._process_fills` consults no dedupe set:
after a first delivery of fill `d1` for the tracked BUY order `o1` marked
the order FILLED at tick 1 and recorded `d1` in the processed-fill set, a
second delivery of the same fill at tick 2 re-executes it and re-marks the
stored order, observably rewriting its `updated_at` from 1 to 2.  (On the
source models the buy handler then raises at strategy.py line 284, in both
deliveries, but only after the order mutation of lines 259-262 is already
persisted.) -/
theorem process_fills_reapplies_duplicate_fill :
    (alFind "o1" (process_fills_src 1 [fillDup] sysC1).1.store.orders).map
        Order.updated_at = some 1
  ∧ (process_fills_src 1 [fillDup] sysC1).1.store.is_fill_processed "d1" = true
  ∧ (alFind "o1" (process_fills_src 2 [fillDup]
        (process_fills_src 1 [fillDup] sysC1).1).1.store.orders).map
        Order.updated_at = some 2 := by
  refine ⟨by decide, by decide, by decide⟩

/-- C1 (amended): duplicate suppression lives in the fill-delivery layer,
not inside `_process_fills`: the EOD delivery step filters fills through
the persisted dedupe set before processing, so delivering the same fill a
second time through that layer leaves the system state unchanged — either
the second delivery filters the fill out (its id was recorded at line 262
or 482 during the first delivery), or the first delivery failed before
recording the id (unknown order id) and the second deterministically
repeats the same failing computation on the unchanged state. -/
theorem deliver_fills_deduped_second_delivery_noop (t t' : ℕ) (f : Fill) (sys : Sys) :
    (deliver_fills_deduped_src t' [f] (deliver_fills_deduped_src t [f] sys).1).1
      = (deliver_fills_deduped_src t [f] sys).1 := by
  have hnoop : ∀ (u : ℕ) (s : Sys), s.store.is_fill_processed f.id = true →
      (deliver_fills_deduped_src u [f] s).1 = s := by
    intro u s h
    unfold deliver_fills_deduped_src
    simp [h, process_fills_src]
  by_cases hp : sys.store.is_fill_processed f.id
  · rw [hnoop t sys hp]
    exact hnoop t' sys hp
  · have hp' : sys.store.is_fill_processed f.id = false := by
      simpa using hp
    rcases horder : alFind f.order_id sys.store.orders with _ | order0
    · have h1 : ∀ u : ℕ, (deliver_fills_deduped_src u [f] sys).1 = sys := by
        intro u
        unfold deliver_fills_deduped_src
        simp [hp', process_fills_src, processOneFill_src, horder]
      rw [h1 t]
      exact h1 t'
    · have hrec : ((deliver_fills_deduped_src t [f] sys).1).store.is_fill_processed f.id
          = true := by
        unfold deliver_fills_deduped_src
        simp only [List.filter_cons, List.filter_nil, hp', Bool.false_eq_true,
          not_false_eq_true, decide_True, if_true, process_fills_src,
          processOneFill_src, horder]
        by_cases hside : order0.side = OrderSide.BUY
        · simp only [Order.mark_status, hside, if_true, handle_buy_src_err,
            Option.isNone_some, Bool.false_eq_true, if_false]
          simp only [JsonStateStore.is_fill_processed, decide_eq_true_eq,
            handle_buy_src_processed]
          exact record_processed_mem _ _
        · simp only [Order.mark_status, hside, if_false, Option.isNone_none,
            if_true, List.foldl_cons, List.foldl_nil]
          simp only [JsonStateStore.is_fill_processed, decide_eq_true_eq]
          exact record_processed_mem _ _
      exact hnoop t' _ hrec

theorem run_paper_eod_body_eodDone (cfg : Config) (today : String)
    (quotes : List (String × Quote)) (t : ℕ) (sys1 : Sys)
    (positions : List (String × Position)) :
    (run_paper_eod_body cfg today quotes t sys1 positions).eodDone = some today := rfl

theorem run_paper_eod_eodDone (cfg : Config) (today : String)
    (quotes : List (String × Quote)) (t : ℕ) (sys : Sys) :
    (run_paper_eod cfg today quotes t sys).eodDone = some today := by
  simp only [run_paper_eod]
  split
  · rfl
  · exact run_paper_eod_body_eodDone cfg today quotes t _ _

/-- C2 (amended): within a single process, invoking EOD liquidation twice on
the same calendar date performs the protocol only once (the second call is a
guarded no-op), but the guard is the in-memory `_eod_done_date` attribute:
nothing about it is persisted, and a restarted process comes back with the
guard unset. -/
theorem eod_second_invocation_same_process_noop (cfg : Config) (today : String)
    (q q' : List (String × Quote)) (t t' : ℕ) (sys : Sys) :
    run_eod_liquidation cfg today q' t' (run_eod_liquidation cfg today q t sys).2
        = (false, (run_eod_liquidation cfg today q t sys).2)
  ∧ ∀ p : PersistedState, (restartSys p).eodDone = none := by
  constructor
  · unfold run_eod_liquidation
    by_cases h : sys.eodDone = some today
    · simp [h]
    · simp [h, run_paper_eod_eodDone]
  · intro p
    rfl

/-- C2 (counterexample): the EOD guard does not survive a restart.  Running
EOD on 2026-10-10, persisting the store, restarting and invoking EOD again
on the same date enters the liquidation protocol a second time. -/
theorem eod_guard_not_persisted_reruns_after_restart :
    (run_eod_liquidation cfgPaper "2026-10-10" [] 5 sysEod).1 = true
  ∧ (run_eod_liquidation cfgPaper "2026-10-10" [] 7
      (restartSys ((run_eod_liquidation cfgPaper "2026-10-10" [] 5
        sysEod).2.store.persisted))).1 = true := by
  exact ⟨rfl, rfl⟩

theorem cancel_fold_positions (l : List Order) (st : JsonStateStore) (t : ℕ) :
    (l.foldl (fun st o => st.upsert_order (o.mark_status OrderStatus.CANCELLED t))
      st).positions = st.positions := by
  induction l generalizing st with
  | nil => rfl
  | cons hd tl ih => simpa using ih (st.upsert_order (hd.mark_status OrderStatus.CANCELLED t))

theorem cancel_fold_orders_ne_nil (l : List Order) (st : JsonStateStore) (t : ℕ)
    (h : st.orders ≠ []) :
    (l.foldl (fun st o => st.upsert_order (o.mark_status OrderStatus.CANCELLED t))
      st).orders ≠ [] := by
  induction l generalizing st with
  | nil => exact h
  | cons hd tl ih =>
    exact ih (st.upsert_order (hd.mark_status OrderStatus.CANCELLED t))
      (alUpsert_ne_nil _ _ _)

/-- C8 (amended): when EOD liquidation completes with state-clearing
configured, `JsonStateStore.clear` empties the whole store: orders, fills
and the traded-date guard, but also the positions, the cross-day metrics and
the processed-fill-id dedupe history.  Nothing in the store survives. -/
theorem eod_clear_clears_entire_store (baseD slip : ℚ) (today : String)
    (quotes : List (String × Quote)) (t : ℕ) (sys : Sys)
    (hdone : sys.eodDone ≠ some today)
    (hbook : ¬ (sys.store.get_open_positions = [] ∧ sys.store.orders = [])) :
    (run_eod_liquidation { baseDollars := baseD, slippageBps := slip, clearState := true }
      today quotes t sys).2.store = JsonStateStore.empty := by
  unfold run_eod_liquidation
  rw [if_neg hdone]
  show (run_paper_eod _ today quotes t sys).store = JsonStateStore.empty
  simp only [run_paper_eod]
  split
  case isTrue hC =>
    exfalso
    apply hbook
    constructor
    · have hp := cancel_fold_positions
        ((sys.store.orders.map Prod.snd).filter
          (fun o => o.side = OrderSide.SELL && isOpenStatus o.status)) sys.store t
      have hh := hC.1
      unfold JsonStateStore.get_open_positions at hh ⊢
      rw [hp] at hh
      exact hh
    · by_cases ho : sys.store.orders = []
      · exact ho
      · exact absurd hC.2 (cancel_fold_orders_ne_nil _ _ _ ho)
  case isFalse hC =>
    unfold run_paper_eod_body
    simp [JsonStateStore.clear]

/-- C8 (counterexample): `clear()` also wipes the dedupe history and the
cross-day metrics: after EOD liquidation with clearing configured, the
previously nonempty `processed_fill_ids` and `metrics` are both empty,
contradicting "always preserving cross-day metrics/dedupe history". -/
theorem eod_clear_wipes_metrics_and_dedupe :
    sysEod.store.processed_fill_ids = ["fA"]
  ∧ sysEod.store.metrics ≠ []
  ∧ (run_eod_liquidation cfgPaper "2026-10-10" [] 5 sysEod).2.store.processed_fill_ids = []
  ∧ (run_eod_liquidation cfgPaper "2026-10-10" [] 5 sysEod).2.store.metrics = [] := by
  refine ⟨rfl, by decide, rfl, rfl⟩

/-- C8 (witness): the amended clearing theorem applied to the concrete
pre-EOD system `sysEod`. -/
theorem eod_clear_clears_entire_store_witness :
    (run_eod_liquidation { baseDollars := 1000, slippageBps := 30, clearState := true }
      "2026-10-10" [] 5 sysEod).2.store = JsonStateStore.empty :=
  eod_clear_clears_entire_store 1000 30 "2026-10-10" [] 5 sysEod
    (by decide) (by decide)

theorem record_processed_fills (s : JsonStateStore) (fid : String) :
    (s.record_processed_fill_id fid).fills = s.fills := by
  unfold JsonStateStore.record_processed_fill_id
  split <;> rfl

theorem upsert_position_fills (s : JsonStateStore) (p : Position) :
    (s.upsert_position p).fills = s.fills := rfl

theorem mark_traded_fills (s : JsonStateStore) (a b : String) :
    (s.mark_traded a b).fills = s.fills := rfl

theorem alFind_upsert_position (s : JsonStateStore) (p : Position) (k : String)
    (h : p.symbol = k) : alFind k (s.upsert_position p).positions = some p := by
  unfold JsonStateStore.upsert_position
  show alFind k (alUpsert p.symbol p s.positions) = some p
  rw [h]
  exact alFind_upsert_self k p s.positions

/-- C5: a SELL fill applied to a tracked position adds exactly
`(fill_price - avg_price_before) * fill_qty` to the realized P&L, the
resulting share count is the clamped difference, and whenever it reaches
zero the stored position is closed with an empty open-target list. -/
theorem sell_fill_realized_pnl_and_close (order : Order) (f : Fill) (sys : Sys)
    (pos : Position)
    (hfind : alFind order.symbol sys.store.positions = some pos)
    (hsym : pos.symbol = order.symbol) :
    ∃ pos', alFind order.symbol (handle_sell_fill order f sys).store.positions = some pos'
      ∧ pos'.realized_pnl = pos.realized_pnl + (f.price - pos.avg_price) * f.quantity
      ∧ pos'.total_shares =
          (if pos.total_shares - f.quantity ≤ 0 then 0 else pos.total_shares - f.quantity)
      ∧ (pos'.total_shares = 0 → pos'.closed = true ∧ pos'.open_target_orders = []) := by
  unfold handle_sell_fill
  rw [hfind]
  unfold Position.apply_sell_fill
  by_cases hsh : pos.total_shares - f.quantity ≤ 0
  · simp only [hsh, if_true, if_pos hsh]
    refine ⟨_, alFind_upsert_position _ _ _ hsym, ?_, rfl, fun _ => ⟨rfl, rfl⟩⟩
    show pos.realized_pnl + (f.price * (f.quantity : ℚ) - pos.avg_price * (f.quantity : ℚ))
        = pos.realized_pnl + (f.price - pos.avg_price) * (f.quantity : ℚ)
    ring
  · simp only [hsh, if_false, if_neg hsh]
    by_cases hcl : pos.closed
    · simp only [hcl, if_true]
      refine ⟨_, alFind_upsert_position _ _ _ hsym, ?_, rfl, ?_⟩
      · show pos.realized_pnl + (f.price * (f.quantity : ℚ) - pos.avg_price * (f.quantity : ℚ))
            = pos.realized_pnl + (f.price - pos.avg_price) * (f.quantity : ℚ)
        ring
      · intro h0
        exact absurd (le_of_eq (show pos.total_shares - f.quantity = 0 from h0)) hsh
    · simp only [hcl, if_false]
      refine ⟨_, alFind_upsert_position _ _ _ hsym, ?_, rfl, ?_⟩
      · show pos.realized_pnl + (f.price * (f.quantity : ℚ) - pos.avg_price * (f.quantity : ℚ))
            = pos.realized_pnl + (f.price - pos.avg_price) * (f.quantity : ℚ)
        ring
      · intro h0
        exact absurd (le_of_eq (show pos.total_shares - f.quantity = 0 from h0)) hsh

/-- C5 (witness): selling the final 5 shares of `posC5` at 55 realizes
exactly 25 and leaves a closed, target-free position. -/
theorem sell_fill_realized_pnl_and_close_witness :
    ∃ pos', alFind "ABC" (handle_sell_fill orderC5 fillC5 sysC5).store.positions = some pos'
      ∧ pos'.realized_pnl = 25 ∧ pos'.total_shares = 0 ∧ pos'.closed = true
      ∧ pos'.open_target_orders = [] := by
  obtain ⟨pos', hfind, hpnl, hshares, hclose⟩ :=
    sell_fill_realized_pnl_and_close orderC5 fillC5 sysC5 posC5 rfl rfl
  have hsh0 : pos'.total_shares = 0 := by
    rw [hshares]
    norm_num [posC5, fillC5]
  obtain ⟨hc, ht⟩ := hclose hsh0
  refine ⟨pos', hfind, ?_, hsh0, hc, ht⟩
  rw [hpnl]
  norm_num [posC5, fillC5]

/-- C9 (code_bug): a fill whose order id is unknown to the store is NOT
handled without failing: on the data model exactly as models.py declares
it, the read of `fill.side` at strategy.py line 244 raises
`AttributeError` (models.py's `Fill` declares no `side` field and pydantic
drops the brokers' `side=` constructor extra), so no placeholder order is
synthesized, nothing is persisted, and the whole system state is left
unchanged — evaluated here at the concrete unknown-order fill `fillU9`
against the empty system. -/
theorem unknown_order_fill_raises_attribute_error :
    process_fills_src 2 [fillU9] sysEmpty
      = (sysEmpty, some (PyError.attributeError "side"))
  ∧ alFind "ux" sysEmpty.store.orders = none := by
  exact ⟨rfl, rfl⟩

/-- C10: `PaperBroker.place_order` accepts by returning a copy: the accepted
order shares the input's id, symbol, side, type, price, quantity, tags and
creation time, carries status WORKING, and is what the broker registers; the
caller's order value is untouched (the source deep-copies before mutating,
which the pure embedding renders as constructing a fresh record). -/
theorem paper_place_order_returns_working_copy (b : PaperBroker) (t : ℕ) (o : Order) :
    let r := b.place_order t o
    r.1.id = o.id ∧ r.1.status = OrderStatus.WORKING ∧ r.1.symbol = o.symbol
  ∧ r.1.side = o.side ∧ r.1.type = o.type ∧ r.1.price = o.price
  ∧ r.1.quantity = o.quantity ∧ r.1.tags = o.tags ∧ r.1.created_at = o.created_at
  ∧ r.1.updated_at = t
  ∧ alFind o.id r.2.open_orders = some r.1 := by
  refine ⟨rfl, rfl, rfl, rfl, rfl, rfl, rfl, rfl, rfl, rfl, ?_⟩
  exact alFind_upsert_self o.id _ b.open_orders

/-- C6: the reference price used by buy placement follows the claimed
priority chain (screener price, else last, else ask, else bid, with `None`
and zero treated as unavailable): when no price is available no order is
produced, and otherwise the produced BUY has quantity
`max 1 ceil(exposure / price)`. -/
theorem buy_reference_price_priority_and_sizing (cfg : Config) (pm ia : Bool)
    (fz : Option ℚ) (q : Option Quote) :
    (specReferencePrice fz q = none → buy_decision cfg pm ia fz q = none)
  ∧ (∀ p : ℚ, specReferencePrice fz q = some p →
      ∃ s : BuySpec, buy_decision cfg pm ia fz q = some s
        ∧ s.quantity = max 1 ⌈cfg.baseDollars / p⌉) := by
  by_cases hf : qTruthy fz
  · cases fz with
    | none => simp [qTruthy] at hf
    | some v =>
      constructor
      · intro hnone
        simp [specReferencePrice, hf] at hnone
      · intro p hp
        have hv : v = p := by
          simpa [specReferencePrice, hf] using hp
        subst hv
        have hd : buy_decision cfg pm ia (some v) q = some ⟨OrderType.LIMIT, some (round2 (v * (150/100))), buyShares cfg.baseDollars v⟩ := by
          simp [buy_decision, hf]
        exact ⟨_, hd, rfl⟩
  · cases q with
    | none =>
      constructor
      · intro _
        simp [buy_decision, hf]
      · intro p hp
        simp [specReferencePrice, hf] at hp
    | some qq =>
      by_cases hl : qTruthy qq.last
      · have hc : pyOr (pyOr qq.last qq.ask) qq.bid = qq.last := by
          rw [pyOr_pos _ _ hl, pyOr_pos _ _ hl]
        constructor
        · intro hnone
          simp [specReferencePrice, hf, hl] at hnone
          simp [qTruthy, hnone] at hl
        · intro p hp
          have hlp : qq.last = some p := by
            simpa [specReferencePrice, hf, hl] using hp
          cases hpi : pm && ia
          · have hd : buy_decision cfg pm ia fz (some qq) = some ⟨OrderType.MARKET, none, buyShares cfg.baseDollars (qq.last.getD 0)⟩ := by
              simp [buy_decision, hf, hc, hl, hpi]
            exact ⟨_, hd, by simp [hlp, buyShares]⟩
          · have hpm : pm = true := ((Bool.and_eq_true pm ia).mp hpi).1
            have hia : ia = true := ((Bool.and_eq_true pm ia).mp hpi).2
            have hd : buy_decision cfg pm ia fz (some qq) = some ⟨OrderType.LIMIT, some (round2 (max (1/100) ((pyOr qq.ask (some (qq.last.getD 0))).getD 0 * (1 + cfg.slippageBps / 10000)))), buyShares cfg.baseDollars (qq.last.getD 0)⟩ := by
              simp [buy_decision, hf, hc, hl, hpi, hpm, hia]
            exact ⟨_, hd, by simp [hlp, buyShares]⟩
      · by_cases ha : qTruthy qq.ask
        · have hc : pyOr (pyOr qq.last qq.ask) qq.bid = qq.ask := by
            rw [show pyOr qq.last qq.ask = qq.ask from pyOr_neg _ _ (by simpa using hl)]
            exact pyOr_pos _ _ ha
          constructor
          · intro hnone
            simp [specReferencePrice, hf, hl, ha] at hnone
            simp [qTruthy, hnone] at ha
          · intro p hp
            have hap : qq.ask = some p := by
              simpa [specReferencePrice, hf, hl, ha] using hp
            cases hpi : pm && ia
            · have hd : buy_decision cfg pm ia fz (some qq) = some ⟨OrderType.MARKET, none, buyShares cfg.baseDollars (qq.ask.getD 0)⟩ := by
                simp [buy_decision, hf, hc, ha, hpi]
              exact ⟨_, hd, by simp [hap, buyShares]⟩
            · have hpm : pm = true := ((Bool.and_eq_true pm ia).mp hpi).1
              have hia : ia = true := ((Bool.and_eq_true pm ia).mp hpi).2
              have hd : buy_decision cfg pm ia fz (some qq) = some ⟨OrderType.LIMIT, some (round2 (max (1/100) ((pyOr qq.ask (some (qq.ask.getD 0))).getD 0 * (1 + cfg.slippageBps / 10000)))), buyShares cfg.baseDollars (qq.ask.getD 0)⟩ := by
                simp [buy_decision, hf, hc, ha, hpi, hpm, hia]
              exact ⟨_, hd, by simp [hap, buyShares]⟩
        · have hc : pyOr (pyOr qq.last qq.ask) qq.bid = qq.bid := by
            rw [show pyOr qq.last qq.ask = qq.ask from pyOr_neg _ _ (by simpa using hl)]
            exact pyOr_neg _ _ (by simpa using ha)
          by_cases hb : qTruthy qq.bid
          · constructor
            · intro hnone
              simp [specReferencePrice, hf, hl, ha, hb] at hnone
              simp [qTruthy, hnone] at hb
            · intro p hp
              have hbp : qq.bid = some p := by
                simpa [specReferencePrice, hf, hl, ha, hb] using hp
              cases hpi : pm && ia
              · have hd : buy_decision cfg pm ia fz (some qq) = some ⟨OrderType.MARKET, none, buyShares cfg.baseDollars (qq.bid.getD 0)⟩ := by
                  simp [buy_decision, hf, hc, hb, hpi]
                exact ⟨_, hd, by simp [hbp, buyShares]⟩
              · have hpm : pm = true := ((Bool.and_eq_true pm ia).mp hpi).1
                have hia : ia = true := ((Bool.and_eq_true pm ia).mp hpi).2
                have hd : buy_decision cfg pm ia fz (some qq) = some ⟨OrderType.LIMIT, some (round2 (max (1/100) ((pyOr qq.ask (some (qq.bid.getD 0))).getD 0 * (1 + cfg.slippageBps / 10000)))), buyShares cfg.baseDollars (qq.bid.getD 0)⟩ := by
                  simp [buy_decision, hf, hc, hb, hpi, hpm, hia]
                exact ⟨_, hd, by simp [hbp, buyShares]⟩
          · constructor
            · intro _
              simp [buy_decision, hf, hc, hb]
            · intro p hp
              simp [specReferencePrice, hf, hl, ha, hb] at hp

/-- C6 (witness): a candidate with screener reference price 50 and
per-position exposure 1000 yields a 20-share BUY (the spec's scenario). -/
theorem buy_reference_price_priority_and_sizing_witness :
    ∃ s : BuySpec, buy_decision cfgPaper false false (some 50) none = some s
      ∧ s.quantity = 20 := by
  obtain ⟨s, hs, hq⟩ :=
    (buy_reference_price_priority_and_sizing cfgPaper false false (some 50) none).2 50
      (by norm_num [specReferencePrice, qTruthy])
  refine ⟨s, hs, ?_⟩
  rw [hq]
  norm_num [cfgPaper]

/-- C7 (amended): the order type of a placed buy is decided as the source
does: a (truthy) screener reference price always yields a LIMIT priced at
1.5 times that price rounded to cents, whatever the session; without a
screener price the order is MARKET unless the pre-open window and the live
(Alpaca) backend coincide, in which case it is a LIMIT at the quote's ask
(or the sizing price when no ask), inflated by the configured slippage in
basis points, floored at 0.01 and rounded to cents. -/
theorem buy_order_type_policy (cfg : Config) (pm ia : Bool) (fz : Option ℚ)
    (q : Option Quote) (s : BuySpec) (h : buy_decision cfg pm ia fz q = some s) :
    (qTruthy fz = true →
        s.type = OrderType.LIMIT ∧ s.price = some (round2 ((fz.getD 0) * (150/100))))
  ∧ (qTruthy fz = false → (pm && ia) = true →
        ∃ qq, q = some qq ∧ s.type = OrderType.LIMIT
          ∧ s.price = some (round2 (max (1/100)
              ((pyOr qq.ask (some ((pyOr (pyOr qq.last qq.ask) qq.bid).getD 0))).getD 0
                * (1 + cfg.slippageBps / 10000)))))
  ∧ (qTruthy fz = false → (pm && ia) = false →
        s.type = OrderType.MARKET ∧ s.price = none) := by
  by_cases hf : qTruthy fz
  · have hs : s = ⟨OrderType.LIMIT, some (round2 ((fz.getD 0) * (150/100))), buyShares cfg.baseDollars (fz.getD 0)⟩ := by
      have hh := h
      simp only [buy_decision, hf, if_true, Option.some.injEq] at hh
      exact hh.symm
    subst hs
    refine ⟨fun _ => ⟨rfl, rfl⟩, fun hcon => ?_, fun hcon => ?_⟩
    · rw [hf] at hcon
      cases hcon
    · rw [hf] at hcon
      cases hcon
  · cases q with
    | none =>
      simp [buy_decision, hf] at h
    | some qq =>
      by_cases hc : qTruthy (pyOr (pyOr qq.last qq.ask) qq.bid)
      · cases hpi : pm && ia
        · have hs : s = ⟨OrderType.MARKET, none, buyShares cfg.baseDollars ((pyOr (pyOr qq.last qq.ask) qq.bid).getD 0)⟩ := by
            have hh := h
            simp only [buy_decision, hf, Bool.false_eq_true, if_false, hc, not_true,
              hpi, Option.some.injEq] at hh
            exact hh.symm
          subst hs
          refine ⟨fun hcon => ?_, fun _ hcon => ?_, fun _ _ => ⟨rfl, rfl⟩⟩
          · rw [hcon] at hf
            exact absurd rfl hf
          · exact absurd hcon (by decide)
        · have hpm : pm = true := ((Bool.and_eq_true pm ia).mp hpi).1
          have hia : ia = true := ((Bool.and_eq_true pm ia).mp hpi).2
          have hs : s = ⟨OrderType.LIMIT, some (round2 (max (1/100) ((pyOr qq.ask (some ((pyOr (pyOr qq.last qq.ask) qq.bid).getD 0))).getD 0 * (1 + cfg.slippageBps / 10000)))), buyShares cfg.baseDollars ((pyOr (pyOr qq.last qq.ask) qq.bid).getD 0)⟩ := by
            have hh := h
            simp [buy_decision, hf, hc, hpi, hpm, hia] at hh
            rw [show ((100:ℚ))⁻¹ = 1/100 from by norm_num] at hh
            exact hh.symm
          subst hs
          refine ⟨fun hcon => ?_, fun _ _ => ⟨qq, rfl, rfl, rfl⟩, fun _ hcon => ?_⟩
          · rw [hcon] at hf
            exact absurd rfl hf
          · exact absurd hcon (by decide)
      · simp [buy_decision, hf, hc] at h

/-- C7 (counterexample): with a screener reference price present (here 50)
and outside the pre-open window (`premarket = false`), the placed buy is a
LIMIT order at 75 with 20 shares, not a MARKET order — refuting "every buy
order placed outside the pre-open session window has type MARKET". -/
theorem finviz_buy_limit_outside_preopen :
    buy_decision cfgPaper false false (some 50) none
      = some { type := OrderType.LIMIT, price := some 75, quantity := 20 }
  ∧ OrderType.LIMIT ≠ OrderType.MARKET := by
  constructor
  · norm_num [buy_decision, qTruthy, buyShares, round2, roundHalfEven, cfgPaper]
  · decide

/-- C7 (witness): the amended order-type policy applied to a quote-sized
buy outside the pre-open window: the decision is MARKET and unpriced. -/
theorem buy_order_type_policy_witness :
    buy_decision cfgPaper false false none (some quoteW)
      = some { type := OrderType.MARKET, price := none, quantity := 20 }
  ∧ ({ type := OrderType.MARKET, price := none, quantity := 20 } : BuySpec).type
      = OrderType.MARKET := by
  have hdec : buy_decision cfgPaper false false none (some quoteW)
      = some { type := OrderType.MARKET, price := none, quantity := 20 } := by
    norm_num [buy_decision, qTruthy, pyOr, buyShares, quoteW, cfgPaper]
  refine ⟨hdec, ?_⟩
  exact ((buy_order_type_policy cfgPaper false false none (some quoteW) _ hdec).2.2
    rfl rfl).1

theorem ladderLoop_proj (sym : String) (t : ℕ) (l : List (String × ℚ × ℤ)) :
    ∀ (pos : Position) (sys : Sys),
    ((ladderLoop sym t l pos sys).2.2).map (fun o => (o.type, o.side, o.price, o.quantity))
      = (l.filter (fun tr => decide (0 < tr.2.2))).map
          (fun tr => (OrderType.LIMIT, OrderSide.SELL, some tr.2.1, tr.2.2)) := by
  induction l with
  | nil =>
    intro pos sys
    rfl
  | cons hd tl ih =>
    intro pos sys
    obtain ⟨tag, price, qty⟩ := hd
    by_cases hq : qty ≤ 0
    · have hdf : decide ((0:ℤ) < qty) = false := by
        simp
        omega
      simp only [ladderLoop, if_pos hq, List.filter_cons, hdf, Bool.false_eq_true, if_false]
      exact ih pos _
    · have hdt : decide ((0:ℤ) < qty) = true := decide_eq_true (by omega)
      simp only [ladderLoop, if_neg hq, List.filter_cons, hdt, if_true, List.map_cons]
      rw [ih]
      rfl

theorem ladderLoop_qtys (sym : String) (t : ℕ) (l : List (String × ℚ × ℤ)) :
    ∀ (pos : Position) (sys : Sys),
    ((ladderLoop sym t l pos sys).2.2).map (fun o => o.quantity)
      = (l.filter (fun tr => decide (0 < tr.2.2))).map (fun tr => tr.2.2) := by
  induction l with
  | nil =>
    intro pos sys
    rfl
  | cons hd tl ih =>
    intro pos sys
    obtain ⟨tag, price, qty⟩ := hd
    by_cases hq : qty ≤ 0
    · have hdf : decide ((0:ℤ) < qty) = false := by
        simp
        omega
      simp only [ladderLoop, if_pos hq, List.filter_cons, hdf, Bool.false_eq_true, if_false]
      exact ih pos _
    · have hdt : decide ((0:ℤ) < qty) = true := decide_eq_true (by omega)
      simp only [ladderLoop, if_neg hq, List.filter_cons, hdt, if_true, List.map_cons]
      rw [ih]
      rfl

theorem ladderLoop_prices (sym : String) (t : ℕ) (l : List (String × ℚ × ℤ)) :
    ∀ (pos : Position) (sys : Sys),
    ((ladderLoop sym t l pos sys).2.2).map (fun o => o.price)
      = (l.filter (fun tr => decide (0 < tr.2.2))).map (fun tr => some tr.2.1) := by
  induction l with
  | nil =>
    intro pos sys
    rfl
  | cons hd tl ih =>
    intro pos sys
    obtain ⟨tag, price, qty⟩ := hd
    by_cases hq : qty ≤ 0
    · have hdf : decide ((0:ℤ) < qty) = false := by
        simp
        omega
      simp only [ladderLoop, if_pos hq, List.filter_cons, hdf, Bool.false_eq_true, if_false]
      exact ih pos _
    · have hdt : decide ((0:ℤ) < qty) = true := decide_eq_true (by omega)
      simp only [ladderLoop, if_neg hq, List.filter_cons, hdt, if_true, List.map_cons]
      rw [ih]
      rfl

theorem ladder_filter_sum (E : ℚ) (Q : ℤ) (hQ : 0 < Q) :
    (((targetLadder E Q).filter (fun tr => decide (0 < tr.2.2))).map
      (fun tr => tr.2.2)).sum = Q := by
  have ha0 : 0 ≤ ⌊(Q:ℚ) * (25/100)⌋ := by
    apply Int.floor_nonneg.mpr
    have hq : (0:ℚ) < (Q:ℚ) := by exact_mod_cast hQ
    positivity
  have haQ : 3 * ⌊(Q:ℚ) * (25/100)⌋ < Q := by
    have h1 : (⌊(Q:ℚ) * (25/100)⌋ : ℚ) ≤ (Q:ℚ) * (25/100) := Int.floor_le _
    have hq : (0:ℚ) < (Q:ℚ) := by exact_mod_cast hQ
    have h3 : ((3 * ⌊(Q:ℚ) * (25/100)⌋ : ℤ) : ℚ) < (Q:ℚ) := by
      push_cast
      nlinarith
    exact_mod_cast h3
  rcases ha0.lt_or_eq with hpos | hzero
  · have h1 : decide ((0:ℤ) < ⌊(Q:ℚ) * (25/100)⌋) = true := decide_eq_true hpos
    have h4 : decide ((0:ℤ) < Q - (⌊(Q:ℚ) * (25/100)⌋ + ⌊(Q:ℚ) * (25/100)⌋
        + ⌊(Q:ℚ) * (25/100)⌋)) = true := decide_eq_true (by omega)
    simp only [targetLadder, List.filter_cons, h1, h4, if_true, List.filter_nil,
      List.map_cons, List.map_nil, List.sum_cons, List.sum_nil]
    omega
  · have h1 : decide ((0:ℤ) < ⌊(Q:ℚ) * (25/100)⌋) = false := by
      rw [← hzero]
      decide
    have h4 : decide ((0:ℤ) < Q - (⌊(Q:ℚ) * (25/100)⌋ + ⌊(Q:ℚ) * (25/100)⌋
        + ⌊(Q:ℚ) * (25/100)⌋)) = true := decide_eq_true (by omega)
    simp only [targetLadder, List.filter_cons, h1, h4, Bool.false_eq_true, if_false,
      if_true, List.filter_nil, List.map_cons, List.map_nil, List.sum_cons, List.sum_nil]
    omega

theorem place_targets_run (t : ℕ) (pos : Position) (E : ℚ) (Q : ℤ) (sys : Sys)
    (hQ : 0 < Q) (hcl : pos.closed = false)
    (hsells : openSellsFor pos.symbol sys.store = []) :
    place_targets t pos E Q sys = ladderLoop pos.symbol t (targetLadder E Q) pos sys := by
  have hg1 : ¬ (Q ≤ 0 ∨ pos.closed = true) := by
    simp [hcl]
    omega
  have hg2 : ¬ (openSellsFor pos.symbol sys.store ≠ []) := by
    simp [hsells]
  unfold place_targets
  rw [if_neg hg1, if_neg hg2]

/-- C3 (amended): for every positive share count Q and entry price E, target
placement (when targets are actually placed: position open, no sell orders
yet open) splits Q into floor(Q*0.25) three times plus the remainder, places
one LIMIT SELL per positive tranche at the entry price times 1.10 / 1.20 /
1.50 / 2.00 rounded to cents, skips non-positive tranches, and the placed
quantities sum exactly to Q, including when Q < 4. -/
theorem target_ladder_split_and_sum (t : ℕ) (pos : Position) (E : ℚ) (Q : ℤ) (sys : Sys)
    (hQ : 0 < Q) (hcl : pos.closed = false)
    (hsells : openSellsFor pos.symbol sys.store = []) :
    ((place_targets t pos E Q sys).2.2.map (fun o => (o.type, o.side, o.price, o.quantity))
        = ((targetLadder E Q).filter (fun tr => decide (0 < tr.2.2))).map
            (fun tr => (OrderType.LIMIT, OrderSide.SELL, some tr.2.1, tr.2.2)))
  ∧ ((place_targets t pos E Q sys).2.2.map (fun o => o.quantity)).sum = Q
  ∧ (targetLadder E Q).map (fun tr => tr.2.1)
      = [round2 (E * (110/100)), round2 (E * (120/100)),
         round2 (E * (150/100)), round2 (E * (200/100))] := by
  rw [place_targets_run t pos E Q sys hQ hcl hsells]
  refine ⟨ladderLoop_proj _ _ _ _ _, ?_, rfl⟩
  rw [ladderLoop_qtys]
  exact ladder_filter_sum E Q hQ

/-- C3 (witness): the ladder theorem at the spec's scenario — 20 shares at
entry 50 yield four LIMIT SELLs of 5 shares each whose quantities sum to 20
at prices 55, 60, 75, 100. -/
theorem target_ladder_split_and_sum_witness :
    ((place_targets 0 posC3W 50 20 sysEmpty).2.2.map (fun o => o.quantity)).sum = 20
  ∧ (targetLadder 50 20).map (fun tr => tr.2.1) = [55, 60, 75, 100] := by
  have h := target_ladder_split_and_sum 0 posC3W 50 20 sysEmpty (by decide) rfl rfl
  refine ⟨h.2.1, ?_⟩
  rw [h.2.2]
  norm_num [round2, roundHalfEven]

/-- C3 (counterexample): the placed limit prices are the entry price times
the multiplier rounded to cents, not exactly `E x 1.10`: with entry price
10.333 the first target is placed at 11.37, while 10.333 x 1.10 = 11.3663. -/
theorem target_prices_rounded_to_cents :
    ((place_targets 0 posC3 (10333/1000) 20 sysEmpty).2.2.map (fun o => o.price)).head?
      = some (some (1137/100))
  ∧ ((1137:ℚ)/100) ≠ (10333/1000) * (110/100) := by
  constructor
  · rw [place_targets_run 0 posC3 (10333/1000) 20 sysEmpty (by decide) rfl rfl,
      ladderLoop_prices]
    have ha : (⌊(20:ℚ) * (25/100)⌋ : ℤ) = 5 := by norm_num
    have h1 : decide ((0:ℤ) < ⌊(20:ℚ) * (25/100)⌋) = true := by
      rw [ha]
      decide
    simp only [targetLadder, List.filter_cons, h1, if_true, List.map_cons,
      Option.some.injEq]
    norm_num [round2, roundHalfEven]
  · norm_num

theorem alFind_upsert_cases {α : Type} (k j : String) (v : α) (l : List (String × α))
    (w : α) (h : alFind k (alUpsert j v l) = some w) :
    (k = j ∧ w = v) ∨ (k ≠ j ∧ alFind k l = some w) := by
  by_cases hk : k = j
  · subst hk
    rw [alFind_upsert_self] at h
    exact Or.inl ⟨rfl, (Option.some.inj h).symm⟩
  · rw [alFind_upsert_ne _ _ _ _ hk] at h
    exact Or.inr ⟨hk, h⟩

theorem keyinv_upsert (l : List (String × Order)) (o : Order)
    (h : ordersKeyInv l) : ordersKeyInv (alUpsert o.id o l) := by
  intro k w hw
  rcases alFind_upsert_cases k o.id o l w hw with ⟨hk, hv⟩ | ⟨_, hl⟩
  · rw [hv, hk]
  · exact h k w hl

theorem alFind_singleton {α : Type} (k a : String) (v w : α)
    (h : alFind k [(a, v)] = some w) : a = k ∧ w = v := by
  by_cases hk : a = k
  · refine ⟨hk, ?_⟩
    simp [alFind, hk] at h
    exact h.symm
  · simp [alFind, hk] at h

theorem handle_sell_orders (order : Order) (f : Fill) (sys : Sys) :
    (handle_sell_fill order f sys).store.orders = sys.store.orders := by
  unfold handle_sell_fill
  split
  · rfl
  · rfl

theorem handle_sell_broker (order : Order) (f : Fill) (sys : Sys) :
    (handle_sell_fill order f sys).broker = sys.broker := by
  unfold handle_sell_fill
  split
  · rfl
  · rfl

theorem ladderLoop_alFind (sym : String) (t : ℕ) (l : List (String × ℚ × ℤ)) :
    ∀ (pos : Position) (sys : Sys) (id : String), id.data.head? ≠ some '#' →
    alFind id ((ladderLoop sym t l pos sys).2.1).store.orders
      = alFind id sys.store.orders := by
  induction l with
  | nil =>
    intro pos sys id _
    rfl
  | cons hd tl ih =>
    intro pos sys id hhead
    obtain ⟨tag, price, qty⟩ := hd
    by_cases hq : qty ≤ 0
    · simp only [ladderLoop, if_pos hq]
      exact ih pos sys id hhead
    · simp only [ladderLoop, if_neg hq]
      rw [ih _ _ id hhead]
      show alFind id (alUpsert (idGen sys.nextId) _ sys.store.orders)
          = alFind id sys.store.orders
      exact alFind_upsert_ne _ id _ _ (ne_idGen_of_head id hhead sys.nextId)

theorem ladderLoop_keyinv (sym : String) (t : ℕ) (l : List (String × ℚ × ℤ)) :
    ∀ (pos : Position) (sys : Sys), ordersKeyInv sys.store.orders →
    ordersKeyInv ((ladderLoop sym t l pos sys).2.1).store.orders := by
  induction l with
  | nil =>
    intro pos sys h
    exact h
  | cons hd tl ih =>
    intro pos sys h
    obtain ⟨tag, price, qty⟩ := hd
    by_cases hq : qty ≤ 0
    · simp only [ladderLoop, if_pos hq]
      exact ih pos sys h
    · simp only [ladderLoop, if_neg hq]
      apply ih
      exact keyinv_upsert _ _ h

theorem place_targets_alFind (t : ℕ) (pos : Position) (E : ℚ) (Q : ℤ) (sys : Sys)
    (id : String) (hhead : id.data.head? ≠ some '#') :
    alFind id ((place_targets t pos E Q sys).2.1).store.orders
      = alFind id sys.store.orders := by
  unfold place_targets
  split
  · rfl
  · split
    · rfl
    · exact ladderLoop_alFind _ _ _ _ _ id hhead

theorem place_targets_keyinv (t : ℕ) (pos : Position) (E : ℚ) (Q : ℤ) (sys : Sys)
    (h : ordersKeyInv sys.store.orders) :
    ordersKeyInv ((place_targets t pos E Q sys).2.1).store.orders := by
  unfold place_targets
  split
  · exact h
  · split
    · exact h
    · exact ladderLoop_keyinv _ _ _ _ _ h

theorem handle_buy_alFind (today : String) (t : ℕ) (order : Order) (f : Fill)
    (sk : Bool) (sys : Sys) (id : String) (hhead : id.data.head? ≠ some '#') :
    alFind id (handle_buy_fill today t order f sk sys).store.orders
      = alFind id sys.store.orders := by
  simp only [handle_buy_fill]
  split_ifs
  · rfl
  · rfl
  · rfl
  · show alFind id ((((place_targets _ _ _ _ sys).2.1).store.upsert_position
        _).mark_traded _ _).orders = alFind id sys.store.orders
    rw [mark_traded_orders, upsert_position_orders]
    exact place_targets_alFind _ _ _ _ _ id hhead

theorem handle_buy_keyinv (today : String) (t : ℕ) (order : Order) (f : Fill)
    (sk : Bool) (sys : Sys) (h : ordersKeyInv sys.store.orders) :
    ordersKeyInv (handle_buy_fill today t order f sk sys).store.orders := by
  simp only [handle_buy_fill]
  split_ifs
  · exact h
  · exact h
  · exact h
  · show ordersKeyInv ((((place_targets _ _ _ _ sys).2.1).store.upsert_position
        _).mark_traded _ _).orders
    rw [mark_traded_orders, upsert_position_orders]
    exact place_targets_keyinv _ _ _ _ _ h

theorem finishFill_alFind (rec : Bool) (today : String) (t : ℕ) (f : Fill)
    (order : Order) (sk : Bool) (sys : Sys) (id : String)
    (hhead : id.data.head? ≠ some '#') :
    alFind id (finishFill rec today t f order sk sys).store.orders
      = alFind id (alUpsert order.id (order.mark_status OrderStatus.FILLED t)
          sys.store.orders) := by
  simp only [finishFill]
  split
  · rw [handle_buy_alFind _ _ _ _ _ _ id hhead]
    show alFind id (((sys.store.upsert_order (order.mark_status OrderStatus.FILLED
        t)).record_fill f).record_processed_fill_id f.id).orders = _
    rw [record_processed_orders, record_fill_orders]
    rfl
  · rw [handle_sell_orders]
    show alFind id (((sys.store.upsert_order (order.mark_status OrderStatus.FILLED
        t)).record_fill f).record_processed_fill_id f.id).orders = _
    rw [record_processed_orders, record_fill_orders]
    rfl

theorem finishFill_keyinv (rec : Bool) (today : String) (t : ℕ) (f : Fill)
    (order : Order) (sk : Bool) (sys : Sys) (h : ordersKeyInv sys.store.orders) :
    ordersKeyInv (finishFill rec today t f order sk sys).store.orders := by
  simp only [finishFill]
  split
  · apply handle_buy_keyinv
    show ordersKeyInv (((sys.store.upsert_order (order.mark_status OrderStatus.FILLED
        t)).record_fill f).record_processed_fill_id f.id).orders
    rw [record_processed_orders, record_fill_orders]
    exact keyinv_upsert _ _ h
  · rw [handle_sell_orders]
    show ordersKeyInv (((sys.store.upsert_order (order.mark_status OrderStatus.FILLED
        t)).record_fill f).record_processed_fill_id f.id).orders
    rw [record_processed_orders, record_fill_orders]
    exact keyinv_upsert _ _ h

theorem processOne_keyinv (rec : Bool) (today : String) (t : ℕ) (f : Fill) (sys : Sys)
    (h : ordersKeyInv sys.store.orders) :
    ordersKeyInv (processOneFill rec today t sys f).store.orders := by
  unfold processOneFill
  split
  · apply finishFill_keyinv
    exact keyinv_upsert sys.store.orders ⟨f.order_id, f.symbol, f.side.getD OrderSide.BUY, OrderType.MARKET, none, f.quantity, OrderStatus.NEW, t, t, ["reconciled_fill"]⟩ h
  · exact finishFill_keyinv _ _ _ _ _ _ _ h

theorem processOne_preserves (rec : Bool) (today : String) (t : ℕ) (f : Fill)
    (sys : Sys) (id : String) (o : Order)
    (hkey : ordersKeyInv sys.store.orders)
    (ho : alFind id sys.store.orders = some o)
    (hhead : id.data.head? ≠ some '#') :
    ∃ o', alFind id (processOneFill rec today t sys f).store.orders = some o'
      ∧ o'.quantity = o.quantity
      ∧ (o'.status = o.status ∨ o'.status = OrderStatus.FILLED) := by
  rcases halk : alFind f.order_id sys.store.orders with _ | order0
  · have hne : id ≠ f.order_id := by
      intro he
      rw [he, halk] at ho
      cases ho
    refine ⟨o, ?_, rfl, Or.inl rfl⟩
    simp only [processOneFill, halk]
    rw [finishFill_alFind _ _ _ _ _ _ _ id hhead]
    show alFind id (alUpsert f.order_id _ (alUpsert f.order_id _ sys.store.orders))
        = some o
    rw [alFind_upsert_ne _ _ _ _ hne, alFind_upsert_ne _ _ _ _ hne]
    exact ho
  · have hid0 : order0.id = f.order_id := hkey _ _ halk
    by_cases hide : id = f.order_id
    · have hoo : o = order0 := by
        rw [hide, halk] at ho
        exact (Option.some.inj ho).symm
      subst hoo
      refine ⟨o.mark_status OrderStatus.FILLED t, ?_, rfl, Or.inr rfl⟩
      simp only [processOneFill, halk]
      rw [finishFill_alFind _ _ _ _ _ _ _ id hhead, hid0, hide]
      exact alFind_upsert_self _ _ _
    · refine ⟨o, ?_, rfl, Or.inl rfl⟩
      simp only [processOneFill, halk]
      rw [finishFill_alFind _ _ _ _ _ _ _ id hhead, hid0]
      rw [alFind_upsert_ne _ _ _ _ hide]
      exact ho

/-- C4 (amended): order quantity is immutable across fill processing: every
order stored before keeps its quantity, and its status either stays put or
becomes FILLED.  Monotonicity out of terminal states fails in exactly one
way: `_process_fills` marks the order referenced by a fill FILLED
unconditionally, so a CANCELLED or REJECTED order can move to FILLED when a
broker-side fill for it arrives; no other status change is made by fill
processing.  (Requires the store invariant that orders are keyed by their
own id, and that the tracked id is not one of the generated fresh ids.) -/
theorem process_fills_quantity_and_status (rec : Bool) (today : String) (t : ℕ)
    (fills : List Fill) :
    ∀ (sys : Sys) (id : String) (o : Order),
    ordersKeyInv sys.store.orders →
    alFind id sys.store.orders = some o →
    id.data.head? ≠ some '#' →
    ∃ o', alFind id (process_fills rec today t fills sys).store.orders = some o'
      ∧ o'.quantity = o.quantity
      ∧ (o'.status = o.status ∨ o'.status = OrderStatus.FILLED) := by
  induction fills with
  | nil =>
    intro sys id o _ ho _
    exact ⟨o, ho, rfl, Or.inl rfl⟩
  | cons f fs ih =>
    intro sys id o hkey ho hhead
    obtain ⟨o1, ho1, hq1, hs1⟩ := processOne_preserves rec today t f sys id o hkey ho hhead
    obtain ⟨o2, ho2, hq2, hs2⟩ := ih (processOneFill rec today t sys f) id o1
      (processOne_keyinv rec today t f sys hkey) ho1 hhead
    refine ⟨o2, ho2, hq2.trans hq1, ?_⟩
    rcases hs2 with h2 | h2
    · rcases hs1 with h1 | h1
      · exact Or.inl (h2.trans h1)
      · exact Or.inr (h2.trans h1)
    · exact Or.inr h2

/-- C4 (counterexample): fill processing moves an order out of a terminal
status: the CANCELLED sell order `o2` becomes FILLED when a broker-reported
fill for it is processed (reachable in the paper EOD flow, which cancels the
store copy while the broker book still holds the live order). -/
theorem cancelled_order_marked_filled_by_fill :
    (alFind "o2" sysC4.store.orders).map Order.status = some OrderStatus.CANCELLED
  ∧ (alFind "o2" (process_fills false "2026-10-10" 3 [fillC4] sysC4).store.orders).map
      Order.status = some OrderStatus.FILLED := by
  refine ⟨by decide, by decide⟩

/-- C4 (witness): the amended preservation theorem applied to the concrete
store of `sysC1` and its order "o1" through one fill delivery. -/
theorem process_fills_quantity_and_status_witness :
    ∃ o', alFind "o1" (process_fills false "2026-10-10" 1 [fillC1] sysC1).store.orders
        = some o'
      ∧ o'.quantity = 20
      ∧ (o'.status = OrderStatus.WORKING ∨ o'.status = OrderStatus.FILLED) := by
  have hkey : ordersKeyInv sysC1.store.orders := by
    intro k o h
    obtain ⟨hak, rfl⟩ := alFind_singleton k "o1" orderC1 o h
    rw [← hak]
    rfl
  obtain ⟨o', h1, h2, h3⟩ := process_fills_quantity_and_status false "2026-10-10" 1
    [fillC1] sysC1 "o1" orderC1 hkey rfl (by decide)
  exact ⟨o', h1, h2, h3⟩

end FinvizTrader
